import Mathlib

/-!
Verification of the Mob-Sarthi perception-to-speech pipeline
(`src/app/page.tsx` and its iterative variants) and the translation
proxy route (`src/Bhasni_Api/routes/route.js`), as a shallow embedding.

Conventions of the embedding:
* Labels and spoken texts are `String`s; transcripts are handled as
  `List Char` so that the `trim`/`toLowerCase` normalization and the
  substring matching of the voice-command handler are fully executable.
* Timestamps (`Date.now()`) are integers (milliseconds).
* Model confidences (`probability`) are rationals; the code compares
  against the literal `0.4`, embedded exactly as `2/5 : ℚ`.
* Mutable refs (`detectingRef`, `recentLabels`, `lastAnnouncementTime`)
  and React state (`lastSpoken`, `stableLabel`) become fields of explicit
  state records; each event handler becomes a state-transition function.
* A JavaScript exception (the `reduce` of an empty array, a rejected
  `await`) is modelled by `Option`/an explicit `faulted` flag: the
  statements after the throwing point do not execute.
-/

namespace MobSarthi

/-! ## StabilityFilter (`getStableLabel` / `findMostFrequent`)

Source (`src/app/page.tsx`, both variants):
```
const getStableLabel = (arr: string[]) => {
  const counts: Record<string, number> = {};
  for (const val of arr) counts[val] = (counts[val] || 0) + 1;
  return Object.keys(counts).reduce((a, b) => (counts[a] > counts[b] ? a : b));
};
```
`Object.keys(counts)` enumerates the distinct labels in first-occurrence
order; `reduce` without an initial value throws a `TypeError` on an empty
key list, which we model by returning `none`. -/

/-- Number of occurrences of label `l` in the history (`counts[l]`). -/
def countLabel (l : String) : List String → Nat
  | [] => 0
  | a :: t => (if a = l then 1 else 0) + countLabel l t

/-- Distinct labels of the history in first-occurrence order
(`Object.keys(counts)` after the counting loop). -/
def keysInOrder (arr : List String) : List String :=
  arr.foldl (fun ks a => if a ∈ ks then ks else ks ++ [a]) []

/-- Function `getStableLabel` of `src/app/page.tsx`: the `reduce` over the key set
with no initial value.  `none` models the `TypeError` thrown on an empty
history. -/
def getStableLabel (arr : List String) : Option String :=
  match keysInOrder arr with
  | [] => none
  | k :: ks =>
      some (ks.foldl (fun a b => if countLabel a arr > countLabel b arr then a else b) k)

/-! ## LabelHistory (`recentLabels.current.push` / `.shift()`)

Source:
```
recentLabels.current.push(label);
if (recentLabels.current.length > 7) {
  recentLabels.current.shift();
}
```
(The capacity is 7 in the MobileNet variant of `src/app/page.tsx` and 5 in
the other variants; we keep it as a parameter `cap`.) -/

/-- One history update of the detection tick: append the new label, then
drop the oldest entry when the capacity is exceeded. -/
def pushAndTrim (cap : Nat) (hist : List String) (label : String) : List String :=
  let h := hist ++ [label]
  if cap < h.length then h.tail else h

/-! ## Inference results and the per-tick label

Source (MobileNet variant):
```
let label = "nothing";
if (predictions.length > 0 && predictions[0].probability > 0.4) {
  label = predictions[0].className;
}
```
-/

structure Prediction where
  className : String
  probability : ℚ
deriving DecidableEq, Repr

/-- The confidence threshold literal `0.4` of the source (written with
`mkRat` so that the comparison evaluates in the kernel). -/
def confThreshold : ℚ := mkRat 2 5

/-- The label a successful tick derives from the prediction list. -/
def labelOfPredictions (preds : List Prediction) : String :=
  match preds with
  | [] => "nothing"
  | p :: _ => if confThreshold < p.probability then p.className else "nothing"

/-! ## AnnouncementManager (`speak`)

Source (MobileNet variant of `src/app/page.tsx`):
```
const speak = (text: string) => {
  if (!("speechSynthesis" in window) || !text) return;
  if (text === lastSpoken) return;
  const now = Date.now();
  if (now - lastAnnouncementTime.current < MIN_ANNOUNCEMENT_INTERVAL) {
    return; // Skip if too soon after last announcement
  }
  window.speechSynthesis.cancel();
  ...
  setLastSpoken(text);
  lastAnnouncementTime.current = now;
  window.speechSynthesis.speak(utter);
};
```
-/

def MIN_ANNOUNCEMENT_INTERVAL : ℤ := 3000

structure SpeakState where
  lastSpoken : String
  lastAnnouncementTime : ℤ
deriving DecidableEq, Repr

structure SpeakResult where
  state : SpeakState
  /-- Set iff `window.speechSynthesis.speak(utter)` was reached. -/
  spoke : Bool
deriving DecidableEq, Repr

/-- The `speak` function.  `supported` models `"speechSynthesis" in window`;
`now` is the value of `Date.now()` read inside the call. -/
def speak (supported : Bool) (s : SpeakState) (text : String) (now : ℤ) : SpeakResult :=
  if supported = false ∨ text = "" then ⟨s, false⟩
  else if text = s.lastSpoken then ⟨s, false⟩
  else if now - s.lastAnnouncementTime < MIN_ANNOUNCEMENT_INTERVAL then ⟨s, false⟩
  else ⟨⟨text, now⟩, true⟩

/-! ## The "stop speaking" branch of the voice-command handler

Source (MobileNet variant of `src/app/page.tsx`):
```
} else if (transcript.includes("stop speaking")) {
  window.speechSynthesis.cancel();
  lastAnnouncementTime.current = Date.now(); // Reset timer after manual stop
  speak("Okay, I stopped speaking.");
}
```
`tReset` is the `Date.now()` of the reset; `tSpeak` the `Date.now()` read
inside the ensuing `speak` call (in the same event handler, so
`tReset ≤ tSpeak` with a negligible gap). -/

structure StopResult where
  cancelled : Bool
  state : SpeakState
  confirmationSpoken : Bool
deriving DecidableEq, Repr

def stopSpeakingHandler (s : SpeakState) (tReset tSpeak : ℤ) : StopResult :=
  let s1 : SpeakState := ⟨s.lastSpoken, tReset⟩
  let r := speak true s1 "Okay, I stopped speaking." tSpeak
  ⟨true, r.state, r.spoke⟩

/-! ## The detection tick (`detect` in the MobileNet variant)

Source:
```
const detect = async () => {
  if (!videoRef.current || detectingRef.current) {
    requestAnimationFrame(detect);
    return;
  }
  detectingRef.current = true;
  const predictions = await model.classify(videoRef.current);
  detectingRef.current = false;
  let label = "nothing";
  if (predictions.length > 0 && predictions[0].probability > 0.4) {
    label = predictions[0].className;
  }
  recentLabels.current.push(label);
  if (recentLabels.current.length > 7) { recentLabels.current.shift(); }
  const stable = getStableLabel(recentLabels.current);
  if (stable !== stableLabel) {
    setStableLabel(stable);
    if (stable !== "nothing") {
      const msg = `Near you is $\x7bstable\x7d.`;
      setStatus(msg); speak(msg);
    } else { setStatus("Nothing detected"); }
  }
  requestAnimationFrame(detect);
};
```
There is no `try`/`catch` around the `await`: a rejected inference leaves
`detectingRef.current === true` and skips everything after the `await`,
including the final `requestAnimationFrame`. -/

def HISTORY_CAP : Nat := 7

structure LoopState where
  /-- Models `detectingRef.current`. -/
  busy : Bool
  /-- Models `recentLabels.current`. -/
  history : List String
  stableLabel : String
  speech : SpeakState
  status : String
deriving DecidableEq, Repr

structure TickResult where
  state : LoopState
  /-- whether `model.classify` was invoked on this tick -/
  inferenceRan : Bool
  /-- whether the tick reached a `requestAnimationFrame(detect)` -/
  rescheduled : Bool
  /-- whether the tick reached `window.speechSynthesis.speak` -/
  spoke : Bool
  /-- whether the tick threw (empty-history `reduce`) -/
  faulted : Bool
deriving DecidableEq, Repr

/-- One invocation of `detect`.  `frameOk` models `videoRef.current` being
non-null; `infer` is the outcome of the awaited `model.classify` call;
`now` is the `Date.now()` read inside a possible `speak`. -/
def detectTick (frameOk : Bool) (s : LoopState) (infer : Except Unit (List Prediction))
    (now : ℤ) : TickResult :=
  if frameOk = false ∨ s.busy then
    ⟨s, false, true, false, false⟩
  else
    match infer with
    | .error _ =>
        ⟨{ s with busy := true }, true, false, false, false⟩
    | .ok preds =>
        let label := labelOfPredictions preds
        let hist := pushAndTrim HISTORY_CAP s.history label
        match getStableLabel hist with
        | none =>
            ⟨{ s with busy := false, history := hist }, true, false, false, true⟩
        | some stable =>
            if stable ≠ s.stableLabel then
              if stable ≠ "nothing" then
                let msg := "Near you is " ++ stable ++ "."
                let r := speak true s.speech msg now
                ⟨⟨false, hist, stable, r.state, msg⟩, true, true, r.spoke, false⟩
              else
                ⟨⟨false, hist, stable, s.speech, "Nothing detected"⟩, true, true, false, false⟩
            else
              ⟨{ s with busy := false, history := hist }, true, true, false, false⟩

/-! ## Scheduler-level view of the loop (backpressure)

To reason about overlap of model invocations across ticks we abstract the
loop into events on the pair (`detectingRef.current`, number of pending
`model.classify` promises).  A tick that finds the flag set (or no video
frame) changes nothing; a tick that passes the guard sets the flag and
starts one inference; a resolving inference clears the flag, a rejecting
one leaves it set (no `catch`). -/

inductive LoopEvent where
  /-- a `requestAnimationFrame` callback fires; `frameOk` models
  `videoRef.current` being non-null -/
  | tickArrive (frameOk : Bool)
  /-- a pending `model.classify` promise settles; `ok = false` is a
  rejection -/
  | inferComplete (ok : Bool)
deriving DecidableEq, Repr

structure SchedState where
  /-- Models `detectingRef.current`. -/
  busy : Bool
  /-- number of `model.classify` invocations currently in flight -/
  inflight : Nat
deriving DecidableEq, Repr

def schedStep (s : SchedState) (e : LoopEvent) : SchedState :=
  match e with
  | .tickArrive frameOk =>
      if frameOk = false ∨ s.busy then s else ⟨true, s.inflight + 1⟩
  | .inferComplete ok =>
      if s.inflight = 0 then s
      else if ok then ⟨false, s.inflight - 1⟩
      else ⟨s.busy, s.inflight - 1⟩

/-- The scheduler state after a sequence of events, starting idle. -/
def schedRun (es : List LoopEvent) : SchedState := es.foldl schedStep ⟨false, 0⟩

/-- The backpressure invariant: the busy flag is only clear when nothing
is in flight, and never more than one inference is pending. -/
def SchedInv (s : SchedState) : Prop :=
  (s.busy = false → s.inflight = 0) ∧ s.inflight ≤ 1

/-! ## VoiceCommandChannel (`recognition.onresult`)

Source (MobileNet variant):
```
const transcript = event.results[event.results.length - 1][0].transcript
  .trim().toLowerCase();
if (transcript.includes("what do you see")) {
  if (stableLabel && stableLabel !== "nothing") speak(`Near you is $\x7bstableLabel\x7d.`);
  else speak("I don't see anything near you right now.");
} else if (transcript.includes("stop speaking")) { ... }
  else if (transcript.includes("start camera")) { setupCamera(); }
```
Transcripts are embedded as `List Char` so the normalization and substring
matching are fully executable. -/

def isSpaceChar (c : Char) : Bool :=
  c = ' ' ∨ c = '\t' ∨ c = '\n' ∨ c = '\r'

/-- JS `String.prototype.trim` on a character list. -/
def trimChars (l : List Char) : List Char :=
  (((l.dropWhile isSpaceChar).reverse).dropWhile isSpaceChar).reverse

/-- JS `String.prototype.toLowerCase` on a character list. -/
def lowerChars (l : List Char) : List Char := l.map Char.toLower

/-- Models `transcript.trim().toLowerCase()`. -/
def normalizeTranscript (t : List Char) : List Char := lowerChars (trimChars t)

def startsWithChars : List Char → List Char → Bool
  | _, [] => true
  | [], _ :: _ => false
  | h :: hs, p :: ps => h == p && startsWithChars hs ps

/-- JS `hay.includes(pat)`: contiguous-substring test. -/
def hasSub : List Char → List Char → Bool
  | [], pat => pat.isEmpty
  | h :: t, pat => startsWithChars (h :: t) pat || hasSub t pat

/-- What the "what do you see" branch announces, given the current stable
label (JS string truthiness: the empty string is falsy). -/
def describeText (stableLabel : String) : String :=
  if stableLabel ≠ "" ∧ stableLabel ≠ "nothing" then "Near you is " ++ stableLabel ++ "."
  else "I don\x27t see anything near you right now."

inductive VoiceAction where
  /-- the "what do you see" branch: reads the perception state and calls
  `speak` with the given text -/
  | describe (text : String)
  /-- the "stop speaking" branch -/
  | stopCommand
  /-- the "start camera" branch: calls `setupCamera()` -/
  | startCamera
  /-- no branch taken -/
  | ignore
deriving DecidableEq, Repr

/-- The dispatch performed by `recognition.onresult` on one final
utterance. -/
def onResult (stableLabel : String) (transcript : List Char) : VoiceAction :=
  let t := normalizeTranscript transcript
  if hasSub t ("what do you see".data) then VoiceAction.describe (describeText stableLabel)
  else if hasSub t ("stop speaking".data) then VoiceAction.stopCommand
  else if hasSub t ("start camera".data) then VoiceAction.startCamera
  else VoiceAction.ignore

/-! ## Translation proxy route (`src/Bhasni_Api/routes/route.js`)

Source:
```
router.post('/', async (req, res) => {
  const { source_language: src, content, target_language: target } = req.body;
  try {
    const result = await getData(src, content, target, serviceId);
    res.status(200).json({ status_code: 200, message: 'success',
      translated_content: result.pipelineResponse[0].output[0].target });
  } catch (error) {
    let error_message = error?.detail?.message || 'Unknown error';
    if (src?.length !== 2 || target?.length !== 2) {
      error_message = 'Invalid Language Codes';
    }
    res.status(500).json({ status_code: 500, message: error_message,
      translated_content: null });
  }
});
```
The upstream call (`getData` plus the `pipelineResponse` extraction) is a
collaborator; its outcome is the `Except` argument. -/

structure UpstreamError where
  /-- Models `error?.detail?.message`; `none` when the optional chain yields
  `undefined` -/
  detailMessage : Option String
deriving DecidableEq, Repr

structure TranslateResponse where
  httpStatus : Nat
  statusCode : Nat
  message : String
  translatedContent : Option String
deriving DecidableEq, Repr

/-- JS `x || d` applied to the string read through the optional chain
(`undefined` and the empty string are falsy). -/
def jsOrDefault (o : Option String) (d : String) : String :=
  match o with
  | none => d
  | some s => if s = "" then d else s

/-- JS `o?.length !== 2`: `true` when the field is missing or its length
differs from 2. -/
def lengthNotTwo (o : Option String) : Bool :=
  match o with
  | none => true
  | some s => s.length ≠ 2

def translateHandler (src target : Option String)
    (upstream : Except UpstreamError String) : TranslateResponse :=
  match upstream with
  | .ok translated => ⟨200, 200, "success", some translated⟩
  | .error e =>
      let msg0 := jsOrDefault e.detailMessage "Unknown error"
      let msg := if lengthNotTwo src ∨ lengthNotTwo target then "Invalid Language Codes"
                 else msg0
      ⟨500, 500, msg, none⟩

/-! ## Helper lemmas -/

lemma keysStep_mem (ks : List String) (a x : String) :
    x ∈ (if a ∈ ks then ks else ks ++ [a]) ↔ x ∈ ks ∨ x = a := by
  by_cases h : a ∈ ks
  · rw [if_pos h]
    constructor
    · exact Or.inl
    · rintro (hx | rfl)
      · exact hx
      · exact h
  · rw [if_neg h]
    simp

lemma keysFold_mem (arr : List String) : ∀ (acc : List String) (x : String),
    x ∈ arr.foldl (fun ks a => if a ∈ ks then ks else ks ++ [a]) acc ↔ x ∈ acc ∨ x ∈ arr := by
  induction arr with
  | nil => intro acc x; simp
  | cons a t ih =>
      intro acc x
      simp only [List.foldl_cons]
      rw [ih, keysStep_mem, List.mem_cons]
      tauto

lemma mem_keysInOrder (arr : List String) (x : String) :
    x ∈ keysInOrder arr ↔ x ∈ arr := by
  unfold keysInOrder
  rw [keysFold_mem]
  simp

lemma foldl_pick_mem (f : String → Nat) :
    ∀ (ks : List String) (k : String),
      ks.foldl (fun a b => if f a > f b then a else b) k ∈ k :: ks := by
  intro ks
  induction ks with
  | nil => intro k; simp
  | cons b t ih =>
      intro k
      simp only [List.foldl_cons]
      rcases List.mem_cons.mp (ih (if f k > f b then k else b)) with h | h
      · rw [h]
        by_cases hc : f k > f b
        · rw [if_pos hc]; exact List.mem_cons_self _ _
        · rw [if_neg hc]; exact List.mem_cons_of_mem _ (List.mem_cons_self _ _)
      · exact List.mem_cons_of_mem _ (List.mem_cons_of_mem _ h)

lemma foldl_pick_ge (f : String → Nat) :
    ∀ (ks : List String) (k : String),
      f k ≤ f (ks.foldl (fun a b => if f a > f b then a else b) k) ∧
      ∀ b ∈ ks, f b ≤ f (ks.foldl (fun a b => if f a > f b then a else b) k) := by
  intro ks
  induction ks with
  | nil => intro k; exact ⟨le_refl _, by simp⟩
  | cons b t ih =>
      intro k
      simp only [List.foldl_cons]
      obtain ⟨h1, h2⟩ := ih (if f k > f b then k else b)
      have hk : f k ≤ f (if f k > f b then k else b) := by
        by_cases hc : f k > f b
        · rw [if_pos hc]
        · rw [if_neg hc]; omega
      have hb : f b ≤ f (if f k > f b then k else b) := by
        by_cases hc : f k > f b
        · rw [if_pos hc]; omega
        · rw [if_neg hc]
      refine ⟨le_trans hk h1, ?_⟩
      intro c hc
      rcases List.mem_cons.mp hc with rfl | hct
      · exact le_trans hb h1
      · exact h2 c hct

lemma getStableLabel_spec (arr : List String) (h : arr ≠ []) :
    ∃ l, getStableLabel arr = some l ∧ l ∈ arr ∧
      ∀ x ∈ arr, countLabel x arr ≤ countLabel l arr := by
  unfold getStableLabel
  cases hk : keysInOrder arr with
  | nil =>
      exfalso
      cases arr with
      | nil => exact h rfl
      | cons a t =>
          have : a ∈ keysInOrder (a :: t) :=
            (mem_keysInOrder _ a).mpr (List.mem_cons_self _ _)
          rw [hk] at this
          exact absurd this (List.not_mem_nil a)
  | cons k ks =>
      refine ⟨_, rfl, ?_, ?_⟩
      · have hm := foldl_pick_mem (fun x => countLabel x arr) ks k
        have : (ks.foldl (fun a b =>
            if countLabel a arr > countLabel b arr then a else b) k) ∈ keysInOrder arr := by
          rw [hk]; exact hm
        exact (mem_keysInOrder arr _).mp this
      · intro x hx
        have hxk : x ∈ k :: ks := by
          rw [← hk]; exact (mem_keysInOrder arr x).mpr hx
        obtain ⟨h1, h2⟩ := foldl_pick_ge (fun x => countLabel x arr) ks k
        rcases List.mem_cons.mp hxk with rfl | hxs
        · exact h1
        · exact h2 x hxs

lemma countLabel_eq_zero (l : String) (arr : List String) (h : l ∉ arr) :
    countLabel l arr = 0 := by
  induction arr with
  | nil => rfl
  | cons a t ih =>
      rw [List.mem_cons, not_or] at h
      unfold countLabel
      rw [if_neg (fun ha => h.1 ha.symm), ih h.2]

lemma mem_of_countLabel_pos (l : String) (arr : List String) (h : 0 < countLabel l arr) :
    l ∈ arr := by
  by_contra hn
  rw [countLabel_eq_zero l arr hn] at h
  exact Nat.lt_irrefl 0 h

lemma countLabel_add_le (l r : String) (arr : List String) (h : l ≠ r) :
    countLabel l arr + countLabel r arr ≤ arr.length := by
  induction arr with
  | nil => simp [countLabel]
  | cons a t ih =>
      unfold countLabel
      rw [List.length_cons]
      by_cases ha : a = l
      · rw [if_pos ha, if_neg (fun hr => h (by rw [← ha, hr]))]
        omega
      · rw [if_neg ha]
        by_cases hr : a = r
        · rw [if_pos hr]; omega
        · rw [if_neg hr]; omega

lemma getStableLabel_majority (arr : List String) (l : String)
    (h : arr.length < 2 * countLabel l arr) :
    getStableLabel arr = some l := by
  have hpos : 0 < countLabel l arr := by
    by_contra hc
    push_neg at hc
    interval_cases hl : countLabel l arr
    omega
  have hmem : l ∈ arr := mem_of_countLabel_pos l arr hpos
  have hne : arr ≠ [] := by
    intro hnil
    rw [hnil] at hmem
    exact List.not_mem_nil l hmem
  obtain ⟨r, hr, hrmem, hmax⟩ := getStableLabel_spec arr hne
  by_cases hrl : r = l
  · rw [hrl] at hr; exact hr
  · exfalso
    have h1 : countLabel l arr ≤ countLabel r arr := hmax l hmem
    have h2 : countLabel l arr + countLabel r arr ≤ arr.length :=
      countLabel_add_le l r arr (fun he => hrl he.symm)
    omega

lemma pushAndTrim_length (cap : Nat) (hist : List String) (l : String)
    (h : hist.length ≤ cap) : (pushAndTrim cap hist l).length ≤ cap := by
  unfold pushAndTrim
  have hlen : (hist ++ [l]).length = hist.length + 1 := by simp
  by_cases hc : cap < (hist ++ [l]).length
  · rw [if_pos hc, List.length_tail]
    omega
  · rw [if_neg hc]
    omega

lemma pushAndTrim_ne_nil (cap : Nat) (hist : List String) (l : String)
    (h : 1 ≤ cap) : pushAndTrim cap hist l ≠ [] := by
  unfold pushAndTrim
  have hlen : (hist ++ [l]).length = hist.length + 1 := by simp
  by_cases hc : cap < (hist ++ [l]).length
  · rw [if_pos hc]
    have hlt : 0 < (hist ++ [l]).tail.length := by
      rw [List.length_tail, hlen]
      rw [hlen] at hc
      omega
    exact List.length_pos.mp hlt
  · rw [if_neg hc]
    simp

lemma foldl_pushAndTrim_length (cap : Nat) (labels : List String) :
    ∀ hist : List String, hist.length ≤ cap →
      (labels.foldl (pushAndTrim cap) hist).length ≤ cap := by
  induction labels with
  | nil => intro hist h; exact h
  | cons a t ih =>
      intro hist h
      simp only [List.foldl_cons]
      exact ih _ (pushAndTrim_length cap hist a h)

lemma schedStep_inv (s : SchedState) (e : LoopEvent) (h : SchedInv s) :
    SchedInv (schedStep s e) := by
  obtain ⟨h1, h2⟩ := h
  cases e with
  | tickArrive frameOk =>
      simp only [schedStep]
      by_cases hb : frameOk = false ∨ s.busy = true
      · rw [if_pos hb]; exact ⟨h1, h2⟩
      · rw [if_neg hb]
        push_neg at hb
        have : s.busy = false := by
          cases hbusy : s.busy
          · rfl
          · exact absurd hbusy hb.2
        rw [h1 this]
        exact ⟨by simp, by simp⟩
  | inferComplete ok =>
      simp only [schedStep]
      by_cases hz : s.inflight = 0
      · rw [if_pos hz]; exact ⟨h1, h2⟩
      · rw [if_neg hz]
        by_cases hok : ok = true
        · rw [if_pos hok]
          refine ⟨fun _ => ?_, ?_⟩ <;> simp only [] <;> omega
        · rw [if_neg hok]
          refine ⟨fun hb => ?_, ?_⟩
          · simp only [] at hb
            rw [h1 hb] at hz; exact absurd rfl hz
          · simp only []
            omega

lemma schedRun_inv (es : List LoopEvent) : SchedInv (schedRun es) := by
  unfold schedRun
  have : ∀ (l : List LoopEvent) (s : SchedState), SchedInv s → SchedInv (l.foldl schedStep s) := by
    intro l
    induction l with
    | nil => intro s h; exact h
    | cons e t ih => intro s h; exact ih _ (schedStep_inv s e h)
  exact this es ⟨false, 0⟩ (by constructor <;> decide)

lemma schedStep_stuck (e : LoopEvent) : schedStep ⟨true, 0⟩ e = ⟨true, 0⟩ := by
  cases e with
  | tickArrive frameOk => simp [schedStep]
  | inferComplete ok => simp [schedStep]

lemma schedFold_stuck (es : List LoopEvent) :
    es.foldl schedStep ⟨true, 0⟩ = ⟨true, 0⟩ := by
  induction es with
  | nil => rfl
  | cons e t ih => rw [List.foldl_cons, schedStep_stuck, ih]

lemma speak_spoke_false_state (b : Bool) (s : SpeakState) (t : String) (n : ℤ)
    (h : (speak b s t n).spoke = false) : (speak b s t n).state = s := by
  unfold speak at h ⊢
  split_ifs at h ⊢ <;> simp_all

lemma speak_spoke_true_state (b : Bool) (s : SpeakState) (t : String) (n : ℤ)
    (h : (speak b s t n).spoke = true) : (speak b s t n).state = ⟨t, n⟩ := by
  unfold speak at h ⊢
  split_ifs at h ⊢ <;> simp_all

lemma speak_same_text_drops (s : SpeakState) (t : String) (n : ℤ)
    (h : t = s.lastSpoken) : speak true s t n = ⟨s, false⟩ := by
  unfold speak
  by_cases he : t = ""
  · rw [if_pos (Or.inr he)]
  · rw [if_neg (by simp [he]), if_pos h]

lemma detectTick_busy (frameOk : Bool) (s : LoopState)
    (infer : Except Unit (List Prediction)) (now : ℤ) (h : s.busy = true) :
    detectTick frameOk s infer now = ⟨s, false, true, false, false⟩ := by
  unfold detectTick
  rw [if_pos (Or.inr h)]

lemma detectTick_error (s : LoopState) (now : ℤ) (h : s.busy = false) :
    detectTick true s (Except.error ()) now =
      ⟨{ s with busy := true }, true, false, false, false⟩ := by
  unfold detectTick
  rw [if_neg (by simp [h])]

/-- Shape of a successful tick: in every branch the busy flag ends clear,
the history is the pushed-and-trimmed one, the tick reschedules and does
not fault, and the new stable label is what `getStableLabel` computed. -/
lemma detectTick_ok (s : LoopState) (preds : List Prediction) (now : ℤ)
    (h : s.busy = false) :
    ∃ stable,
      getStableLabel (pushAndTrim HISTORY_CAP s.history (labelOfPredictions preds)) =
        some stable ∧
      (detectTick true s (Except.ok preds) now).state.busy = false ∧
      (detectTick true s (Except.ok preds) now).state.history =
        pushAndTrim HISTORY_CAP s.history (labelOfPredictions preds) ∧
      (detectTick true s (Except.ok preds) now).state.stableLabel = stable ∧
      (detectTick true s (Except.ok preds) now).rescheduled = true ∧
      (detectTick true s (Except.ok preds) now).faulted = false := by
  have hne : pushAndTrim HISTORY_CAP s.history (labelOfPredictions preds) ≠ [] :=
    pushAndTrim_ne_nil _ _ _ (by norm_num [HISTORY_CAP])
  obtain ⟨stable, hs, _, _⟩ := getStableLabel_spec _ hne
  refine ⟨stable, hs, ?_⟩
  unfold detectTick
  rw [if_neg (by simp [h])]
  simp only [hs]
  by_cases h1 : stable ≠ s.stableLabel
  · rw [if_pos h1]
    by_cases h2 : stable ≠ "nothing"
    · rw [if_pos h2]
      exact ⟨rfl, rfl, rfl, rfl, rfl⟩
    · rw [if_neg h2]
      exact ⟨rfl, rfl, rfl, rfl, rfl⟩
  · rw [if_neg h1]
    push_neg at h1
    exact ⟨rfl, rfl, h1.symm, rfl, rfl⟩

lemma lengthNotTwo_false_iff (o : Option String) :
    lengthNotTwo o = false ↔ ∃ s, o = some s ∧ s.length = 2 := by
  cases o with
  | none => simp [lengthNotTwo]
  | some s => simp [lengthNotTwo]

/-! ## Claims -/

/-- C1: at most one inference invocation is in flight at any time — a tick
that finds the busy flag set performs no inference and no state update and
only reschedules itself, and along every event sequence of the detection
loop the number of in-flight model invocations never exceeds one. -/
theorem claim_C1_no_overlapping_inference :
    (∀ (frameOk : Bool) (s : LoopState) (infer : Except Unit (List Prediction)) (now : ℤ),
        s.busy = true →
        detectTick frameOk s infer now = ⟨s, false, true, false, false⟩) ∧
    (∀ es : List LoopEvent, (schedRun es).inflight ≤ 1) := by
  exact ⟨detectTick_busy, fun es => (schedRun_inv es).2⟩

/-- Witness for C1: a busy tick at a concrete state, and a concrete event
sequence. -/
theorem claim_C1_witness :
    detectTick true ⟨true, ["cat"], "cat", ⟨"", 0⟩, ""⟩ (Except.ok []) 0 =
      ⟨⟨true, ["cat"], "cat", ⟨"", 0⟩, ""⟩, false, true, false, false⟩ ∧
    (schedRun [LoopEvent.tickArrive true, LoopEvent.tickArrive true,
      LoopEvent.inferComplete true, LoopEvent.tickArrive true]).inflight ≤ 1 :=
  ⟨claim_C1_no_overlapping_inference.1 true _ _ 0 rfl,
   claim_C1_no_overlapping_inference.2 _⟩

/-- C2 counterexample: in the history `["a","b","c","d","e"]` (N = 5) every
label's count is 1, below the threshold `ratio×N` (with the spec's default
ratio 0.4, stated as `count*5 < N*2`), yet `getStableLabel` returns `"e"`
rather than the sentinel `"nothing"` the claim demands. -/
theorem claim_C2_counterexample :
    countLabel "a" ["a", "b", "c", "d", "e"] * 5 <
      (["a", "b", "c", "d", "e"] : List String).length * 2 ∧
    countLabel "b" ["a", "b", "c", "d", "e"] * 5 <
      (["a", "b", "c", "d", "e"] : List String).length * 2 ∧
    countLabel "c" ["a", "b", "c", "d", "e"] * 5 <
      (["a", "b", "c", "d", "e"] : List String).length * 2 ∧
    countLabel "d" ["a", "b", "c", "d", "e"] * 5 <
      (["a", "b", "c", "d", "e"] : List String).length * 2 ∧
    countLabel "e" ["a", "b", "c", "d", "e"] * 5 <
      (["a", "b", "c", "d", "e"] : List String).length * 2 ∧
    countLabel "nothing" ["a", "b", "c", "d", "e"] = 0 ∧
    getStableLabel ["a", "b", "c", "d", "e"] = some "e" ∧
    ("e" : String) ≠ "nothing" := by
  decide

/-- C2 (amended): `getStableLabel` applies no ratio threshold — on every
nonempty history it returns some label that occurs in the history and
whose occurrence count is maximal (so the sentinel `"nothing"` is returned
only when `"nothing"` itself attains the maximum), and a label occupying
a strict majority of the entries is always the one returned. -/
theorem claim_C2_amended_majority :
    (∀ arr : List String, arr ≠ [] →
        ∃ l, getStableLabel arr = some l ∧ l ∈ arr ∧
          ∀ x ∈ arr, countLabel x arr ≤ countLabel l arr) ∧
    (∀ (arr : List String) (l : String), arr.length < 2 * countLabel l arr →
        getStableLabel arr = some l) :=
  ⟨getStableLabel_spec, getStableLabel_majority⟩

/-- Witness for C2 (amended): the spec's own scenario history converges to
"dog", which holds a strict majority (3 of 5). -/
theorem claim_C2_amended_witness :
    getStableLabel ["dog", "dog", "dog", "cat", "nothing"] = some "dog" :=
  claim_C2_amended_majority.2 ["dog", "dog", "dog", "cat", "nothing"] "dog" (by decide)

/-- C3 counterexample: after "hello" is synthesized at time 0, a repeated
`speak "hello"` at time 5000 — well past the 3000 ms minimum interval — is
still dropped by the duplicate-text check, contradicting the claim that a
repeat after `minInterval` produces a second synthesis call. -/
theorem claim_C3_counterexample :
    (speak true ⟨"", -3000⟩ "hello" 0).spoke = true ∧
    (5000 : ℤ) - (speak true ⟨"", -3000⟩ "hello" 0).state.lastAnnouncementTime ≥
      MIN_ANNOUNCEMENT_INTERVAL ∧
    (speak true (speak true ⟨"", -3000⟩ "hello" 0).state "hello" 5000).spoke = false := by
  decide

/-- C3 (amended): `speak` is a no-op on empty or duplicate text; after a
successful synthesis of some text, a repeated call with the same text is
dropped no matter how much time has elapsed (the duplicate check precedes
the interval check and `lastSpoken` still holds the text), so two
identical calls within `minInterval` make exactly one synthesis call; and
a dropped call leaves the announcement state unchanged — nothing is
queued for later. -/
theorem claim_C3_amended_speak_throttle :
    (∀ (s : SpeakState) (text : String) (now : ℤ),
        text = "" ∨ text = s.lastSpoken → speak true s text now = ⟨s, false⟩) ∧
    (∀ (s : SpeakState) (text : String) (now1 now2 : ℤ),
        (speak true s text now1).spoke = true →
        (speak true (speak true s text now1).state text now2).spoke = false) ∧
    (∀ (b : Bool) (s : SpeakState) (text : String) (now : ℤ),
        (speak b s text now).spoke = false → (speak b s text now).state = s) := by
  refine ⟨?_, ?_, speak_spoke_false_state⟩
  · rintro s text now (h | h)
    · unfold speak; rw [if_pos (Or.inr h)]
    · exact speak_same_text_drops s text now h
  · intro s text now1 now2 h
    rw [speak_spoke_true_state _ _ _ _ h]
    rw [speak_same_text_drops _ _ _ rfl]

/-- Witness for C3 (amended): a duplicate is a no-op; a repeat of a
just-spoken text is dropped; a throttled drop leaves the state intact. -/
theorem claim_C3_amended_witness :
    speak true ⟨"hi", 0⟩ "hi" 10000 = ⟨⟨"hi", 0⟩, false⟩ ∧
    (speak true (speak true ⟨"", -3000⟩ "ping" 0).state "ping" 2000).spoke = false ∧
    (speak true ⟨"x", 0⟩ "y" 100).state = ⟨"x", 0⟩ :=
  ⟨claim_C3_amended_speak_throttle.1 ⟨"hi", 0⟩ "hi" 10000 (Or.inr rfl),
   claim_C3_amended_speak_throttle.2.1 ⟨"", -3000⟩ "ping" 0 2000 (by decide),
   claim_C3_amended_speak_throttle.2.2 true ⟨"x", 0⟩ "y" 100 (by decide)⟩

/-- C4: the code refutes the claim — the "stop speaking" handler resets
the throttle timer to the current time *before* calling `speak`, so the
confirmation phrase is dropped by the minimum-interval gate (elapsed time
`δ < 3000 ms`), and every announcement in the following 3000 ms —
including an immediate distinct one — is dropped as well.  Only the
cancellation of in-flight speech actually happens. -/
theorem claim_C4_confirmation_dropped :
    ∀ (s : SpeakState) (t δ : ℤ), 0 ≤ δ → δ < MIN_ANNOUNCEMENT_INTERVAL →
      (stopSpeakingHandler s t (t + δ)).cancelled = true ∧
      (stopSpeakingHandler s t (t + δ)).confirmationSpoken = false ∧
      ∀ (text : String) (δ2 : ℤ), 0 ≤ δ2 → δ2 < MIN_ANNOUNCEMENT_INTERVAL →
        (speak true (stopSpeakingHandler s t (t + δ)).state text (t + δ2)).spoke = false := by
  intro s t δ h0 hδ
  have hconf : (speak true ⟨s.lastSpoken, t⟩ "Okay, I stopped speaking." (t + δ)).spoke
      = false := by
    unfold speak
    by_cases h1 : "Okay, I stopped speaking." = SpeakState.lastSpoken ⟨s.lastSpoken, t⟩
    · rw [if_neg (by decide), if_pos h1]
    · rw [if_neg (by decide), if_neg h1, if_pos (by simp only []; omega)]
  have hst : (stopSpeakingHandler s t (t + δ)).state = ⟨s.lastSpoken, t⟩ := by
    show (speak true ⟨s.lastSpoken, t⟩ "Okay, I stopped speaking." (t + δ)).state = _
    exact speak_spoke_false_state _ _ _ _ hconf
  refine ⟨rfl, hconf, ?_⟩
  intro text δ2 h02 hδ2
  rw [hst]
  unfold speak
  by_cases he : text = ""
  · rw [if_pos (Or.inr he)]
  · by_cases hd : text = SpeakState.lastSpoken ⟨s.lastSpoken, t⟩
    · rw [if_neg (by simp [he]), if_pos hd]
    · rw [if_neg (by simp [he]), if_neg hd, if_pos (by simp only []; omega)]

/-- Witness for C4: stopping at t = 10000 cancels speech but never speaks
the confirmation, and a distinct announcement 100 ms later is dropped. -/
theorem claim_C4_witness :
    (stopSpeakingHandler ⟨"Near you is chair.", 0⟩ 10000 (10000 + 0)).cancelled = true ∧
    (stopSpeakingHandler ⟨"Near you is chair.", 0⟩ 10000 (10000 + 0)).confirmationSpoken
      = false ∧
    (speak true (stopSpeakingHandler ⟨"Near you is chair.", 0⟩ 10000 (10000 + 0)).state
      "Near you is dog." (10000 + 100)).spoke = false := by
  have h := claim_C4_confirmation_dropped ⟨"Near you is chair.", 0⟩ 10000 0
    (by decide) (by decide)
  exact ⟨h.1, h.2.1, h.2.2 "Near you is dog." 100 (by decide) (by decide)⟩

/-- C5 counterexample: a tick whose inference call fails leaves the busy
flag set, performs no history update, and does not reschedule — contrary
to the claim that the flag is released and the loop reschedules. -/
theorem claim_C5_counterexample :
    (detectTick true ⟨false, ["chair"], "chair", ⟨"", 0⟩, ""⟩
        (Except.error ()) 0).state.busy = true ∧
    (detectTick true ⟨false, ["chair"], "chair", ⟨"", 0⟩, ""⟩
        (Except.error ()) 0).rescheduled = false ∧
    (detectTick true ⟨false, ["chair"], "chair", ⟨"", 0⟩, ""⟩
        (Except.error ()) 0).state.history = ["chair"] := by
  decide

/-- C5 (amended): there is no error handling around the inference call —
on failure the tick performs no state update (history, stable label and
announcement state are untouched) but the busy flag is left set and the
tick does not reschedule; from then on the scheduler state is stuck for
every further event, so no tick ever starts another inference: a per-tick
inference failure is fatal to the detection loop. -/
theorem claim_C5_amended_failure_fatal :
    (∀ (s : LoopState) (now : ℤ), s.busy = false →
        detectTick true s (Except.error ()) now =
          ⟨{ s with busy := true }, true, false, false, false⟩) ∧
    (∀ es : List LoopEvent, es.foldl schedStep ⟨true, 0⟩ = ⟨true, 0⟩) :=
  ⟨fun s now h => detectTick_error s now h, schedFold_stuck⟩

/-- Witness for C5 (amended): a concrete failing tick, and a concrete
event sequence after the failure. -/
theorem claim_C5_amended_witness :
    detectTick true ⟨false, ["chair"], "chair", ⟨"", 0⟩, ""⟩ (Except.error ()) 7 =
      ⟨⟨true, ["chair"], "chair", ⟨"", 0⟩, ""⟩, true, false, false, false⟩ ∧
    [LoopEvent.tickArrive true, LoopEvent.inferComplete true,
      LoopEvent.tickArrive true].foldl schedStep ⟨true, 0⟩ = ⟨true, 0⟩ :=
  ⟨claim_C5_amended_failure_fatal.1 ⟨false, ["chair"], "chair", ⟨"", 0⟩, ""⟩ 7 rfl,
   claim_C5_amended_failure_fatal.2 _⟩

/-- C6: the label history is a bounded queue — a single push-and-evict
update preserves the capacity bound, any sequence of updates starting
from the empty history stays within capacity at all times, and no
detection tick ever grows the history beyond `HISTORY_CAP`. -/
theorem claim_C6_history_bounded :
    (∀ (cap : Nat) (hist : List String) (l : String),
        hist.length ≤ cap → (pushAndTrim cap hist l).length ≤ cap) ∧
    (∀ (cap : Nat) (labels : List String),
        (labels.foldl (pushAndTrim cap) []).length ≤ cap) ∧
    (∀ (frameOk : Bool) (s : LoopState) (infer : Except Unit (List Prediction)) (now : ℤ),
        s.history.length ≤ HISTORY_CAP →
        (detectTick frameOk s infer now).state.history.length ≤ HISTORY_CAP) := by
  refine ⟨pushAndTrim_length, ?_, ?_⟩
  · intro cap labels
    exact foldl_pushAndTrim_length cap labels [] (by simp)
  · intro frameOk s infer now h
    by_cases hb : frameOk = false ∨ s.busy = true
    · have : detectTick frameOk s infer now = ⟨s, false, true, false, false⟩ := by
        unfold detectTick
        rw [if_pos hb]
      rw [this]
      exact h
    · push_neg at hb
      have hf : frameOk = true := by
        cases frameOk
        · exact absurd rfl hb.1
        · rfl
      have hbf : s.busy = false := by
        cases hbusy : s.busy
        · rfl
        · exact absurd hbusy hb.2
      subst hf
      cases infer with
      | error e =>
          cases e
          rw [detectTick_error s now hbf]
          simpa using h
      | ok preds =>
          obtain ⟨stable, _, _, hhist, _, _, _⟩ := detectTick_ok s preds now hbf
          rw [hhist]
          exact pushAndTrim_length _ _ _ h

/-- Witness for C6 at concrete inputs (a full history and a running
tick). -/
theorem claim_C6_witness :
    (pushAndTrim 7 ["a", "b", "c", "d", "e", "f", "g"] "h").length ≤ 7 ∧
    (["a", "b", "c", "d", "e", "f", "g", "h", "i"].foldl (pushAndTrim 7) []).length ≤ 7 ∧
    (detectTick true ⟨false, ["a", "b", "c", "d", "e", "f", "g"], "a", ⟨"", 0⟩, ""⟩
        (Except.ok []) 0).state.history.length ≤ HISTORY_CAP :=
  ⟨claim_C6_history_bounded.1 7 ["a", "b", "c", "d", "e", "f", "g"] "h" (by decide),
   claim_C6_history_bounded.2.1 7 ["a", "b", "c", "d", "e", "f", "g", "h", "i"],
   claim_C6_history_bounded.2.2 true ⟨false, ["a", "b", "c", "d", "e", "f", "g"], "a",
     ⟨"", 0⟩, ""⟩ (Except.ok []) 0 (by decide)⟩

/-- C7 counterexample: the normalized utterance "describe my surroundings"
contains "surroundings", yet the handler ignores it — the "surroundings"
trigger the claim describes does not exist in the code. -/
theorem claim_C7_counterexample :
    hasSub (normalizeTranscript ("  Describe my Surroundings ".data)) ("surroundings".data)
      = true ∧
    onResult "chair" ("  Describe my Surroundings ".data) = VoiceAction.ignore := by
  decide

/-- C7 (amended): for every final utterance the handler trims and
lowercases it and dispatches solely on substring containment, in order:
"what do you see" reads the stable label and announces a description;
otherwise "stop speaking" triggers the stop branch; otherwise
"start camera" invokes the capture-start collaborator; anything else —
including utterances mentioning "surroundings" — is ignored. -/
theorem claim_C7_amended_dispatch :
    ∀ (lbl : String) (t : List Char),
      (hasSub (normalizeTranscript t) ("what do you see".data) = true →
        onResult lbl t = VoiceAction.describe (describeText lbl)) ∧
      (hasSub (normalizeTranscript t) ("what do you see".data) = false →
        hasSub (normalizeTranscript t) ("stop speaking".data) = true →
        onResult lbl t = VoiceAction.stopCommand) ∧
      (hasSub (normalizeTranscript t) ("what do you see".data) = false →
        hasSub (normalizeTranscript t) ("stop speaking".data) = false →
        hasSub (normalizeTranscript t) ("start camera".data) = true →
        onResult lbl t = VoiceAction.startCamera) ∧
      (hasSub (normalizeTranscript t) ("what do you see".data) = false →
        hasSub (normalizeTranscript t) ("stop speaking".data) = false →
        hasSub (normalizeTranscript t) ("start camera".data) = false →
        onResult lbl t = VoiceAction.ignore) := by
  intro lbl t
  refine ⟨?_, ?_, ?_, ?_⟩
  · intro h1
    simp [onResult, h1]
  · intro h1 h2
    simp [onResult, h1, h2]
  · intro h1 h2 h3
    simp [onResult, h1, h2, h3]
  · intro h1 h2 h3
    simp [onResult, h1, h2, h3]

/-- Witness for C7 (amended): each command branch at a concrete
utterance. -/
theorem claim_C7_amended_witness :
    onResult "chair" ("what do you see".data) = VoiceAction.describe "Near you is chair." ∧
    onResult "chair" ("please stop speaking".data) = VoiceAction.stopCommand ∧
    onResult "chair" ("start camera".data) = VoiceAction.startCamera ∧
    onResult "chair" ("hello there".data) = VoiceAction.ignore := by
  refine ⟨?_, ?_, ?_, ?_⟩
  · rw [(claim_C7_amended_dispatch "chair" ("what do you see".data)).1 (by decide)]
    decide
  · exact (claim_C7_amended_dispatch "chair" _).2.1 (by decide) (by decide)
  · exact (claim_C7_amended_dispatch "chair" _).2.2.1 (by decide) (by decide) (by decide)
  · exact (claim_C7_amended_dispatch "chair" _).2.2.2 (by decide) (by decide) (by decide)

/-- C8: a successful tick with zero detections derives the sentinel
"nothing"; with at least one detection a label other than "nothing" is
derived only when the top prediction's confidence strictly exceeds the
0.4 threshold (and then it is that prediction's class name); and the tick
pushes exactly this derived label into the history. -/
theorem claim_C8_confidence_filter :
    labelOfPredictions [] = "nothing" ∧
    (∀ preds : List Prediction, labelOfPredictions preds ≠ "nothing" →
        ∃ p, preds.head? = some p ∧ confThreshold < p.probability ∧
          labelOfPredictions preds = p.className) ∧
    (∀ (s : LoopState) (preds : List Prediction) (now : ℤ), s.busy = false →
        (detectTick true s (Except.ok preds) now).state.history =
          pushAndTrim HISTORY_CAP s.history (labelOfPredictions preds)) := by
  refine ⟨rfl, ?_, ?_⟩
  · intro preds h
    cases preds with
    | nil => exact absurd rfl h
    | cons p t =>
        have h' : (if confThreshold < p.probability then p.className else "nothing")
            ≠ "nothing" := h
        by_cases hc : confThreshold < p.probability
        · refine ⟨p, rfl, hc, ?_⟩
          show (if confThreshold < p.probability then p.className else "nothing")
            = p.className
          rw [if_pos hc]
        · exfalso
          rw [if_neg hc] at h'
          exact h' rfl
  · intro s preds now hb
    obtain ⟨stable, _, _, hhist, _, _, _⟩ := detectTick_ok s preds now hb
    exact hhist

/-- Witness for C8: a confident cat detection and its push into the
history of a concrete tick. -/
theorem claim_C8_witness :
    (∃ p, ([⟨"cat", mkRat 1 2⟩] : List Prediction).head? = some p ∧
        confThreshold < p.probability ∧
        labelOfPredictions [⟨"cat", mkRat 1 2⟩] = p.className) ∧
    (detectTick true ⟨false, [], "", ⟨"", 0⟩, ""⟩
        (Except.ok [⟨"cat", mkRat 1 2⟩]) 0).state.history =
      pushAndTrim HISTORY_CAP [] (labelOfPredictions [⟨"cat", mkRat 1 2⟩]) :=
  ⟨claim_C8_confidence_filter.2.1 [⟨"cat", mkRat 1 2⟩] (by decide),
   claim_C8_confidence_filter.2.2 ⟨false, [], "", ⟨"", 0⟩, ""⟩ [⟨"cat", mkRat 1 2⟩] 0 rfl⟩

/-- C9 counterexample: with valid 2-character codes "en" and "hi" and an
upstream failure whose detail message is literally "Invalid Language
Codes", the route replies with that message although both codes are valid
— the claim's "exactly when" equivalence fails in this case. -/
theorem claim_C9_counterexample :
    lengthNotTwo (some "en") = false ∧
    lengthNotTwo (some "hi") = false ∧
    (translateHandler (some "en") (some "hi")
        (Except.error ⟨some "Invalid Language Codes"⟩)).message
      = "Invalid Language Codes" := by
  decide

/-- C9 (amended): a successful upstream call yields HTTP 200, status_code
200, message "success" and the translated text; an upstream failure
yields HTTP 500 with null content, the message being "Invalid Language
Codes" whenever source or target is not a 2-character string, and
otherwise the upstream detail message when present and non-empty (else
"Unknown error") — which may itself coincide with "Invalid Language
Codes". -/
theorem claim_C9_amended_route :
    (∀ (src target : Option String) (r : String),
        translateHandler src target (Except.ok r) = ⟨200, 200, "success", some r⟩) ∧
    (∀ (src target : Option String) (e : UpstreamError),
        (translateHandler src target (Except.error e)).httpStatus = 500 ∧
        (translateHandler src target (Except.error e)).statusCode = 500 ∧
        (translateHandler src target (Except.error e)).translatedContent = none) ∧
    (∀ (src target : Option String) (e : UpstreamError),
        ¬ ((∃ a, src = some a ∧ a.length = 2) ∧ (∃ b, target = some b ∧ b.length = 2)) →
        (translateHandler src target (Except.error e)).message = "Invalid Language Codes") ∧
    (∀ (a b : String) (e : UpstreamError), a.length = 2 → b.length = 2 →
        (translateHandler (some a) (some b) (Except.error e)).message =
          jsOrDefault e.detailMessage "Unknown error") := by
  refine ⟨fun _ _ _ => rfl, ?_, ?_, ?_⟩
  · intro src target e
    unfold translateHandler
    by_cases hc : lengthNotTwo src = true ∨ lengthNotTwo target = true
    · simp [hc]
    · simp at hc
      simp [hc]
  · intro src target e h
    have hc : lengthNotTwo src = true ∨ lengthNotTwo target = true := by
      by_contra hn
      push_neg at hn
      obtain ⟨h1, h2⟩ := hn
      have h1f : lengthNotTwo src = false := by
        cases hcase : lengthNotTwo src
        · rfl
        · exact absurd hcase h1
      have h2f : lengthNotTwo target = false := by
        cases hcase : lengthNotTwo target
        · rfl
        · exact absurd hcase h2
      exact h ⟨(lengthNotTwo_false_iff src).mp h1f, (lengthNotTwo_false_iff target).mp h2f⟩
    unfold translateHandler
    simp [hc]
  · intro a b e ha hb
    have h1 : lengthNotTwo (some a) = false := (lengthNotTwo_false_iff _).mpr ⟨a, rfl, ha⟩
    have h2 : lengthNotTwo (some b) = false := (lengthNotTwo_false_iff _).mpr ⟨b, rfl, hb⟩
    unfold translateHandler
    simp [h1, h2]

/-- Witness for C9 (amended) at concrete requests. -/
theorem claim_C9_amended_witness :
    translateHandler (some "en") (some "hi") (Except.ok "नमस्ते")
      = ⟨200, 200, "success", some "नमस्ते"⟩ ∧
    (translateHandler (some "en") (some "hin") (Except.error ⟨some "boom"⟩)).message
      = "Invalid Language Codes" ∧
    (translateHandler (some "en") (some "hi") (Except.error ⟨none⟩)).message
      = "Unknown error" := by
  refine ⟨claim_C9_amended_route.1 (some "en") (some "hi") "नमस्ते", ?_, ?_⟩
  · refine claim_C9_amended_route.2.2.1 (some "en") (some "hin") ⟨some "boom"⟩ ?_
    rintro ⟨-, b, hb, hlen⟩
    cases hb
    exact absurd hlen (by decide)
  · have h := claim_C9_amended_route.2.2.2 "en" "hi" ⟨none⟩ (by decide) (by decide)
    rw [h]
    rfl

/-- C10: `getStableLabel` faults on the empty history (the `reduce` over
the empty key set has no initial value, modelled as `none`), but a tick
always pushes a label — possibly the sentinel "nothing" — before calling
it: `pushAndTrim` never returns an empty list for positive capacity,
`getStableLabel` succeeds on every nonempty history, and a successful
tick never faults. -/
theorem claim_C10_empty_history_fault_unreachable :
    getStableLabel [] = none ∧
    (∀ (cap : Nat) (hist : List String) (l : String), 1 ≤ cap →
        pushAndTrim cap hist l ≠ []) ∧
    (∀ arr : List String, arr ≠ [] → (getStableLabel arr).isSome = true) ∧
    (∀ (s : LoopState) (preds : List Prediction) (now : ℤ), s.busy = false →
        (detectTick true s (Except.ok preds) now).faulted = false) := by
  refine ⟨rfl, pushAndTrim_ne_nil, ?_, ?_⟩
  · intro arr h
    obtain ⟨l, hl, -, -⟩ := getStableLabel_spec arr h
    rw [hl]
    rfl
  · intro s preds now hb
    obtain ⟨stable, _, _, _, _, _, hfault⟩ := detectTick_ok s preds now hb
    exact hfault

/-- Witness for C10: a concrete push and a concrete successful tick on an
initially empty history. -/
theorem claim_C10_witness :
    pushAndTrim 7 [] "nothing" ≠ [] ∧
    (getStableLabel ["nothing"]).isSome = true ∧
    (detectTick true ⟨false, [], "", ⟨"", 0⟩, ""⟩ (Except.ok []) 0).faulted = false :=
  ⟨claim_C10_empty_history_fault_unreachable.2.1 7 [] "nothing" (by decide),
   claim_C10_empty_history_fault_unreachable.2.2.1 ["nothing"] (by decide),
   claim_C10_empty_history_fault_unreachable.2.2.2 ⟨false, [], "", ⟨"", 0⟩, ""⟩ [] 0 rfl⟩

end MobSarthi
